import Mathlib

/-!
Shallow embedding of the NeuralNetwork repository (src/Node.py and
src/GradientDescent.py) and verification of its specification.

Python floats are modelled as real numbers and `math.e ** x` as `Real.exp x`.
A Python object is modelled as an immutable value; an in-place mutation of an
attribute becomes a function returning the updated value.  Lists of unknown
Python `Node` references become values of the inductive type `Node` below:
its `children` field is a `List Node`, so children graphs are acyclic by
construction (the precondition the spec states for `isConnectedTo`).
Random draws (`random.uniform`) are passed in explicitly as a function from
the draw's position to the drawn value.
-/

set_option maxHeartbeats 1000000

/-- The `Node` class of src/Node.py.  Field order follows the attribute
assignments of `Node.__init__`: `numInputs`, `weights`, `biases`, `children`,
`sigmoid_value`, `value` (an inductive type is needed because `children`
recursively holds nodes, which a Lean `structure` does not allow). -/
inductive Node : Type where
  | mk (numInputs : ℕ) (weights : List ℝ) (biases : List ℝ)
       (children : List Node) (sigmoid_value : ℝ) (value : ℝ) : Node

/-- Accessor for `self.numInputs`. -/
def Node.numInputs : Node → ℕ
  | .mk n _ _ _ _ _ => n

/-- Accessor for `self.weights`. -/
def Node.weights : Node → List ℝ
  | .mk _ w _ _ _ _ => w

/-- Accessor for `self.biases`. -/
def Node.biases : Node → List ℝ
  | .mk _ _ b _ _ _ => b

/-- Accessor for `self.children`. -/
def Node.children : Node → List Node
  | .mk _ _ _ c _ _ => c

/-- Accessor for `self.sigmoid_value`. -/
def Node.sigmoid_value : Node → ℝ
  | .mk _ _ _ _ s _ => s

/-- Accessor for `self.value`. -/
def Node.value : Node → ℝ
  | .mk _ _ _ _ _ v => v

/-- In-place assignment `self.value = v`. -/
def Node.withValue : Node → ℝ → Node
  | .mk n w b c s _, v => .mk n w b c s v

/-- In-place assignment of `self.weights` and `self.biases` together. -/
def Node.withParams : Node → List ℝ → List ℝ → Node
  | .mk n _ _ c s v, w, b => .mk n w b c s v

/-- In-place assignment `self.children = c`. -/
def Node.withChildren : Node → List Node → Node
  | .mk n w b _ s v, c => .mk n w b c s v

/-- Constant `Node.MAX_MUTATION = 0.5`. -/
def Node.MAX_MUTATION : ℝ := 0.5

/-- Constant `Node.MIN_WEIGHT = -3`. -/
def Node.MIN_WEIGHT : ℝ := -3

/-- Constant `Node.MAX_WEIGHT = 3`. -/
def Node.MAX_WEIGHT : ℝ := 3

/-- Constant `Node.MIN_BIAS = -1`. -/
def Node.MIN_BIAS : ℝ := -1

/-- Constant `Node.MAX_BIAS = 1`. -/
def Node.MAX_BIAS : ℝ := 1

/-- Constant `Node.DEFAULT_SIGMOID_VALUE = 0.1`. -/
def Node.DEFAULT_SIGMOID_VALUE : ℝ := 0.1

/-- Model of `Node.__init__(weights, biases, children, sigmoid_value)`:
sets `numInputs = len(weights)`, raises
`ValueError("Different amount of weights and biases.")` when
`len(weights) != len(biases)`, and initialises `value = 0`. -/
def Node.init (weights biases : List ℝ) (children : List Node)
    (sigmoid_value : ℝ) : Except String Node :=
  if weights.length ≠ biases.length then
    .error "Different amount of weights and biases."
  else
    .ok (.mk weights.length weights biases children sigmoid_value 0)

/-- Index-carrying map, modelling Python's
`for index in range(len(xs)): xs[index] = f(index, xs[index])`;
`k` is the index of the head of the remaining list. -/
def mapIdxFrom {α β : Type} (f : ℕ → α → β) : ℕ → List α → List β
  | _, [] => []
  | k, a :: l => f k a :: mapIdxFrom f (k + 1) l

/-- Model of `Node.mutate()`: every weight and bias is rescaled in place by
`(1 - change)` where `change` is a fresh uniform draw in
`[-MAX_MUTATION, MAX_MUTATION]`; the draws are supplied as `wDraws`/`bDraws`
indexed by the loop index.  The mutated node itself is returned
(`return self`). -/
def Node.mutate (node : Node) (wDraws bDraws : ℕ → ℝ) : Node :=
  node.withParams
    (mapIdxFrom (fun i w => w * (1 - wDraws i)) 0 node.weights)
    (mapIdxFrom (fun i b => b * (1 - bDraws i)) 0 node.biases)

/-- Model of `Node.setChildren(newChildren)`. -/
def Node.setChildren (node : Node) (newChildren : List Node) : Node :=
  node.withChildren newChildren

/-- Model of `Node.isInChildren(other)`, that is `other in self.children`.  Python compares
object identity here; in this embedding node values stand for nodes, so
membership is list membership. -/
def Node.isInChildren (node other : Node) : Prop :=
  other ∈ node.children

/-- Model of `Node.isConnectedTo(other)`:
`self.isInChildren(other) or any(map(lambda child: child.isConnectedTo(other), self.children))`.
The existential ranges over the subtype of members of `children` so that the
recursion is visibly on a smaller node. -/
def Node.isConnectedTo : Node → Node → Prop
  | .mk _ _ _ children _ _, other =>
      other ∈ children ∨
        ∃ c : {x // x ∈ children}, Node.isConnectedTo c.val other
termination_by n _ => sizeOf n
decreasing_by
  have h := List.sizeOf_lt_of_mem c.property
  simp only [Node.mk.sizeOf_spec]
  omega

/-- Relation stating that `other` is reachable from `n` by following one or more `children`
edges. -/
inductive Node.Reachable : Node → Node → Prop where
  | direct (n c : Node) (h : c ∈ n.children) : Node.Reachable n c
  | through (n c o : Node) (h : c ∈ n.children) (r : Node.Reachable c o) :
      Node.Reachable n o

/-- Model of `Node.sigmoid(num)`:
`1 / (1 + e ** (-1 * num * self.sigmoid_value)) / self.numInputs`. -/
noncomputable def Node.sigmoid (node : Node) (num : ℝ) : ℝ :=
  1 / (1 + Real.exp (-1 * num * node.sigmoid_value)) / (node.numInputs : ℝ)

/-- Three-list map, modelling Python's `map(f, xs, ys, zs)`, which stops at
the shortest of the three lists. -/
def zip3With {α β γ δ : Type} (f : α → β → γ → δ) :
    List α → List β → List γ → List δ
  | a :: as, b :: bs, c :: cs => f a b c :: zip3With f as bs cs
  | _, _, _ => []

/-- Model of `Node.__call__(nums)`: assigns
`self.value = sum(map(lambda weight, bias, num: self.sigmoid(weight * num + bias), self.weights, self.biases, nums))`
and returns that value; the result is the updated node paired with the
returned value. -/
noncomputable def Node.call (node : Node) (nums : List ℝ) : Node × ℝ :=
  let v := (zip3With (fun weight bias num => node.sigmoid (weight * num + bias))
      node.weights node.biases nums).sum
  (node.withValue v, v)

/-- Model of `Node.gradientHelper(weight, bias, num, goal)`: the hand-derived gradient
pair.  `a = weight * num + bias`, `b = e ** (-a * self.sigmoid_value) + 1`,
`c = 1 / (b * self.numInputs)` (the unused `d = (c - goal) ** 2` of the source
is the loss the comment of the source says is being differentiated);
returns `(derivRespectWeight, derivRespectBias)` with
`derivRespectBias = 2 * self.sigmoid_value * b * (c - goal) / (b ** 2 * self.numInputs)`
and `derivRespectWeight = derivRespectBias * num`. -/
noncomputable def Node.gradientHelper (node : Node)
    (weight bias num goal : ℝ) : ℝ × ℝ :=
  let a := weight * num + bias
  let b := Real.exp (-a * node.sigmoid_value) + 1
  let c := 1 / (b * (node.numInputs : ℝ))
  let derivRespectBias :=
    2 * node.sigmoid_value * b * (c - goal) / (b ^ 2 * (node.numInputs : ℝ))
  let derivRespectWeight := derivRespectBias * num
  (derivRespectWeight, derivRespectBias)

/-- The loop of `Node.gradient`:
`for index, (weight, bias, num) in enumerate(zip(self.weights, self.biases, nums))`,
updating `self.weights[index] -= learnRate * w'` and
`self.biases[index] -= learnRate * b'` where `(w', b')` is
`gradientHelper(weight, bias, num, perGoal)`.  The iteration stops at the
shortest of the three lists (Python `zip`); list entries past that point are
returned unchanged.  Each entry is read before it is written, so every update
uses the pre-update value of its own pair only. -/
noncomputable def gradUpdate (node : Node) (perGoal learnRate : ℝ) :
    List ℝ → List ℝ → List ℝ → List ℝ × List ℝ
  | w :: ws, b :: bs, x :: xs =>
      let p := node.gradientHelper w b x perGoal
      let rest := gradUpdate node perGoal learnRate ws bs xs
      ((w - learnRate * p.1) :: rest.1, (b - learnRate * p.2) :: rest.2)
  | ws, bs, _ => (ws, bs)

/-- Model of `Node.gradient(nums, goal, learnRate)`: `length = len(nums)`, then the
update loop with per-example goal `goal / length`. -/
noncomputable def Node.gradient (node : Node) (nums : List ℝ)
    (goal learnRate : ℝ) : Node :=
  let length := nums.length
  let upd := gradUpdate node (goal / (length : ℝ)) learnRate
    node.weights node.biases nums
  node.withParams upd.1 upd.2

/-- Model of the static `Node.loss(weight, bias, num, goal)`:
`(weight * num + bias - goal) ** 2`. -/
noncomputable def Node.loss (weight bias num goal : ℝ) : ℝ :=
  (weight * num + bias - goal) ^ 2

/-- Model of `Node.__deepcopy__`: element-wise copies of the weight and bias lists
(value-identical in this embedding), the *same* children, and the same
sigmoid coefficient, passed through the constructor (so `value` restarts
at 0). -/
def Node.deepcopy (node : Node) : Except String Node :=
  Node.init (node.weights.map (fun weight => weight))
    (node.biases.map (fun bias => bias)) node.children node.sigmoid_value

/-- Model of `Node.asDict()`: `{"Weights": self.weights, "Biases": self.biases}`,
modelled as the pair of the two lists. -/
def Node.asDict (node : Node) : List ℝ × List ℝ :=
  (node.weights, node.biases)

/-- The construction invariant of a node:
`len(weights) == len(biases) == numInputs`. -/
def Node.ParamInvariant (node : Node) : Prop :=
  node.weights.length = node.numInputs ∧ node.biases.length = node.numInputs

/-- The `GradientNetwork` class of src/GradientDescent.py.
Modelled from the spec: the fields `nodes`, `nodesInLayer`, `numLayers` and
`value` belong to the `NeuralNetwork` base class, whose source file is not
part of this repository snapshot; per the spec the base exposes an indexable
`nodes` table whose row 0 is the ordered first layer, the per-layer unit
count `nodesInLayer`, and the last forward-pass output `value`. -/
structure GradientNetwork : Type where
  nodes : List (List Node)
  nodesInLayer : ℕ
  numLayers : ℕ
  maxIter : ℕ
  learnRate : ℝ
  value : ℝ
  size : ℕ

/-- Model of `GradientNetwork.__init__`: stores `maxIter` and `learnRate` and sets
`size = nodesInLayer * numLayers`.  Modelled from the spec: the base-class
`super().__init__` call is summarised by taking the resulting `nodes` table
and initial `value` as arguments. -/
def GradientNetwork.init (numInputs nodesInLayer numLayers : ℕ)
    (nodes : List (List Node)) (maxIter : ℕ) (learnRate : ℝ)
    (baseValue : ℝ) : GradientNetwork :=
  { nodes := nodes
    nodesInLayer := nodesInLayer
    numLayers := numLayers
    maxIter := maxIter
    learnRate := learnRate
    value := baseValue
    size := nodesInLayer * numLayers }

/-- Applies `f` in place to the first `k` entries of a list, modelling
`for index in range(k): layer[index] = f(layer[index])` (Python would raise
`IndexError` if `k` exceeded the length; theorems about it assume
`k ≤ length`). -/
def updateFirst {α : Type} (f : α → α) : ℕ → List α → List α
  | 0, l => l
  | _ + 1, [] => []
  | k + 1, a :: l => f a :: updateFirst f k l

/-- Model of `GradientNetwork.stepGeneration(inputs, goal)`:
`for index in range(self.nodesInLayer): self.nodes[0][index].gradient(inputs, goal / self.size, self.learnRate)`.
Only row 0 of `nodes` is touched. -/
noncomputable def GradientNetwork.stepGeneration (net : GradientNetwork)
    (inputs : List ℝ) (goal : ℝ) : GradientNetwork :=
  { net with nodes :=
      match net.nodes with
      | [] => []
      | layer0 :: rest =>
          updateFirst
            (fun node => node.gradient inputs (goal / (net.size : ℝ)) net.learnRate)
            net.nodesInLayer layer0 :: rest }

/-- The `while iterationCounter < MAXIMUM_ITERATION` loop of
`GradientNetwork.evolveTillTolerance`, parametrised by the forward pass `fw`
of the external `NeuralNetwork` collaborator (modelled from the spec: a
callable that evaluates the network on the inputs, updating its state and in
particular `value`).  `fuel` is the number of loop rounds still allowed;
at the top of each round the loop breaks as soon as
`abs(self.value - goal) < abs(tolerance * goal)`, otherwise it runs the
forward pass (`self(inputs)`), then `stepGeneration`, and increments the
counter. -/
noncomputable def GradientNetwork.evolveAux
    (fw : GradientNetwork → List ℝ → GradientNetwork)
    (inputs : List ℝ) (goal tolerance : ℝ) :
    ℕ → GradientNetwork → ℕ → GradientNetwork × ℕ
  | 0, net, counter => (net, counter)
  | fuel + 1, net, counter =>
      if |net.value - goal| < |tolerance * goal| then (net, counter)
      else
        GradientNetwork.evolveAux fw inputs goal tolerance fuel
          ((fw net inputs).stepGeneration inputs goal) (counter + 1)

/-- Model of `GradientNetwork.evolveTillTolerance(inputs, goal, tolerance)`:
`MAXIMUM_ITERATION = 1000`; a non-positive `tolerance` is replaced by `0.1`;
then the loop above starting from counter 0.  The result is the final
network state paired with the final `iterationCounter`. -/
noncomputable def GradientNetwork.evolveTillTolerance
    (fw : GradientNetwork → List ℝ → GradientNetwork)
    (net : GradientNetwork) (inputs : List ℝ) (goal : ℝ)
    (tolerance : ℝ) : GradientNetwork × ℕ :=
  let t := if tolerance ≤ 0 then (0.1 : ℝ) else tolerance
  GradientNetwork.evolveAux fw inputs goal t 1000 net 0

/-- The per-input squared error `d = (c - goal) ** 2` of `gradientHelper`
viewed as a function of the bias alone:
`c = 1 / ((e ** (-(weight * num + bias) * s) + 1) * nI)` is this input's
sigmoid output. -/
noncomputable def lossOfBias (s : ℝ) (nI : ℕ) (weight num goal : ℝ)
    (bias : ℝ) : ℝ :=
  (1 / ((Real.exp (-(weight * num + bias) * s) + 1) * (nI : ℝ)) - goal) ^ 2

/-- The per-input squared error `d = (c - goal) ** 2` of `gradientHelper`
viewed as a function of the weight alone. -/
noncomputable def lossOfWeight (s : ℝ) (nI : ℕ) (bias num goal : ℝ)
    (weight : ℝ) : ℝ :=
  (1 / ((Real.exp (-(weight * num + bias) * s) + 1) * (nI : ℝ)) - goal) ^ 2

/-! ## Helper lemmas about the list recursions -/

theorem mapIdxFrom_length {α β : Type} (f : ℕ → α → β) :
    ∀ (k : ℕ) (l : List α), (mapIdxFrom f k l).length = l.length := by
  intro k l
  induction l generalizing k with
  | nil => simp [mapIdxFrom]
  | cons a l ih => simp [mapIdxFrom, ih]

theorem mapIdxFrom_get {α β : Type} (f : ℕ → α → β) :
    ∀ (k : ℕ) (l : List α) (i : ℕ) (h : i < l.length),
      (mapIdxFrom f k l).get ⟨i, by rw [mapIdxFrom_length]; exact h⟩
        = f (k + i) (l.get ⟨i, h⟩) := by
  intro k l
  induction l generalizing k with
  | nil => intro i h; simp at h
  | cons a l ih =>
      intro i h
      cases i with
      | zero => simp [mapIdxFrom]
      | succ j =>
          simp only [mapIdxFrom, List.get_cons_succ]
          rw [ih (k + 1) j (by simpa using h)]
          ring_nf

theorem gradUpdate_fst_length (node : Node) (perGoal learnRate : ℝ) :
    ∀ (ws bs xs : List ℝ),
      (gradUpdate node perGoal learnRate ws bs xs).1.length = ws.length := by
  intro ws
  induction ws with
  | nil => intro bs xs; cases bs <;> cases xs <;> simp [gradUpdate]
  | cons w ws ih =>
      intro bs xs
      cases bs with
      | nil => cases xs <;> simp [gradUpdate]
      | cons b bs =>
          cases xs with
          | nil => simp [gradUpdate]
          | cons x xs => simp [gradUpdate, ih]

theorem gradUpdate_snd_length (node : Node) (perGoal learnRate : ℝ) :
    ∀ (ws bs xs : List ℝ),
      (gradUpdate node perGoal learnRate ws bs xs).2.length = bs.length := by
  intro ws
  induction ws with
  | nil => intro bs xs; cases bs <;> cases xs <;> simp [gradUpdate]
  | cons w ws ih =>
      intro bs xs
      cases bs with
      | nil => cases xs <;> simp [gradUpdate]
      | cons b bs =>
          cases xs with
          | nil => simp [gradUpdate]
          | cons x xs => simp [gradUpdate, ih]

theorem gradUpdate_fst_get (node : Node) (perGoal learnRate : ℝ) :
    ∀ (ws bs xs : List ℝ) (i : ℕ) (h1 : i < ws.length) (h2 : i < bs.length)
      (h3 : i < xs.length),
      (gradUpdate node perGoal learnRate ws bs xs).1.get
          ⟨i, by rw [gradUpdate_fst_length]; exact h1⟩
        = ws.get ⟨i, h1⟩ - learnRate *
            (node.gradientHelper (ws.get ⟨i, h1⟩) (bs.get ⟨i, h2⟩)
              (xs.get ⟨i, h3⟩) perGoal).1 := by
  intro ws
  induction ws with
  | nil => intro bs xs i h1; simp at h1
  | cons w ws ih =>
      intro bs xs i h1 h2 h3
      cases bs with
      | nil => simp at h2
      | cons b bs =>
          cases xs with
          | nil => simp at h3
          | cons x xs =>
              cases i with
              | zero => simp [gradUpdate]
              | succ j =>
                  have hj1 : j < ws.length := by simpa using h1
                  have hj2 : j < bs.length := by simpa using h2
                  have hj3 : j < xs.length := by simpa using h3
                  simpa [gradUpdate] using ih bs xs j hj1 hj2 hj3

theorem gradUpdate_snd_get (node : Node) (perGoal learnRate : ℝ) :
    ∀ (ws bs xs : List ℝ) (i : ℕ) (h1 : i < ws.length) (h2 : i < bs.length)
      (h3 : i < xs.length),
      (gradUpdate node perGoal learnRate ws bs xs).2.get
          ⟨i, by rw [gradUpdate_snd_length]; exact h2⟩
        = bs.get ⟨i, h2⟩ - learnRate *
            (node.gradientHelper (ws.get ⟨i, h1⟩) (bs.get ⟨i, h2⟩)
              (xs.get ⟨i, h3⟩) perGoal).2 := by
  intro ws
  induction ws with
  | nil => intro bs xs i h1; simp at h1
  | cons w ws ih =>
      intro bs xs i h1 h2 h3
      cases bs with
      | nil => simp at h2
      | cons b bs =>
          cases xs with
          | nil => simp at h3
          | cons x xs =>
              cases i with
              | zero => simp [gradUpdate]
              | succ j =>
                  have hj1 : j < ws.length := by simpa using h1
                  have hj2 : j < bs.length := by simpa using h2
                  have hj3 : j < xs.length := by simpa using h3
                  simpa [gradUpdate] using ih bs xs j hj1 hj2 hj3

theorem gradUpdate_fst_get_of_ge (node : Node) (perGoal learnRate : ℝ) :
    ∀ (ws bs xs : List ℝ) (i : ℕ) (h1 : i < ws.length),
      (bs.length ≤ i ∨ xs.length ≤ i) →
      (gradUpdate node perGoal learnRate ws bs xs).1.get
          ⟨i, by rw [gradUpdate_fst_length]; exact h1⟩
        = ws.get ⟨i, h1⟩ := by
  intro ws
  induction ws with
  | nil => intro bs xs i h1; simp at h1
  | cons w ws ih =>
      intro bs xs i h1 hge
      cases bs with
      | nil => cases xs <;> simp [gradUpdate]
      | cons b bs =>
          cases xs with
          | nil => simp [gradUpdate]
          | cons x xs =>
              cases i with
              | zero =>
                  rcases hge with hb | hx
                  · simp at hb
                  · simp at hx
              | succ j =>
                  have hj1 : j < ws.length := by simpa using h1
                  have hj : bs.length ≤ j ∨ xs.length ≤ j := by
                    rcases hge with hb | hx
                    · exact Or.inl (by simpa using hb)
                    · exact Or.inr (by simpa using hx)
                  simpa [gradUpdate] using ih bs xs j hj1 hj

theorem gradUpdate_snd_get_of_ge (node : Node) (perGoal learnRate : ℝ) :
    ∀ (ws bs xs : List ℝ) (i : ℕ) (h2 : i < bs.length),
      (ws.length ≤ i ∨ xs.length ≤ i) →
      (gradUpdate node perGoal learnRate ws bs xs).2.get
          ⟨i, by rw [gradUpdate_snd_length]; exact h2⟩
        = bs.get ⟨i, h2⟩ := by
  intro ws
  induction ws with
  | nil => intro bs xs i h2 _; cases bs with
      | nil => simp at h2
      | cons b bs => cases xs <;> simp [gradUpdate]
  | cons w ws ih =>
      intro bs xs i h2 hge
      cases bs with
      | nil => simp at h2
      | cons b bs =>
          cases xs with
          | nil => simp [gradUpdate]
          | cons x xs =>
              cases i with
              | zero =>
                  rcases hge with hw | hx
                  · simp at hw
                  · simp at hx
              | succ j =>
                  have hj2 : j < bs.length := by simpa using h2
                  have hj : ws.length ≤ j ∨ xs.length ≤ j := by
                    rcases hge with hw | hx
                    · exact Or.inl (by simpa using hw)
                    · exact Or.inr (by simpa using hx)
                  simpa [gradUpdate] using ih bs xs j hj2 hj

theorem updateFirst_length {α : Type} (f : α → α) :
    ∀ (k : ℕ) (l : List α), (updateFirst f k l).length = l.length := by
  intro k
  induction k with
  | zero => intro l; simp [updateFirst]
  | succ k ih =>
      intro l
      cases l with
      | nil => simp [updateFirst]
      | cons a l => simp [updateFirst, ih]

theorem updateFirst_get {α : Type} (f : α → α) :
    ∀ (k : ℕ) (l : List α) (i : ℕ) (h : i < l.length),
      (updateFirst f k l).get ⟨i, by rw [updateFirst_length]; exact h⟩
        = if i < k then f (l.get ⟨i, h⟩) else l.get ⟨i, h⟩ := by
  intro k
  induction k with
  | zero => intro l i h; simp [updateFirst]
  | succ k ih =>
      intro l i h
      cases l with
      | nil => simp at h
      | cons a l =>
          cases i with
          | zero => simp [updateFirst]
          | succ j =>
              have hj : j < l.length := by simpa using h
              have := ih l j hj
              simpa [updateFirst, Nat.succ_lt_succ_iff] using this

theorem zip3With_length {α β γ δ : Type} (f : α → β → γ → δ) :
    ∀ (as : List α) (bs : List β) (cs : List γ),
      (zip3With f as bs cs).length = min (min as.length bs.length) cs.length := by
  intro as
  induction as with
  | nil => intro bs cs; cases bs <;> cases cs <;> simp [zip3With]
  | cons a as ih =>
      intro bs cs
      cases bs with
      | nil => cases cs <;> simp [zip3With]
      | cons b bs =>
          cases cs with
          | nil => simp [zip3With]
          | cons c cs =>
              simp [zip3With, ih, Nat.succ_min_succ]

theorem zip3With_eq_ofFn {α β γ δ : Type} (f : α → β → γ → δ) :
    ∀ (n : ℕ) (as : List α) (bs : List β) (cs : List γ)
      (ha : as.length = n) (hb : bs.length = n) (hc : cs.length = n),
      zip3With f as bs cs
        = List.ofFn (fun i : Fin n =>
            f (as.get (Fin.cast ha.symm i)) (bs.get (Fin.cast hb.symm i))
              (cs.get (Fin.cast hc.symm i))) := by
  intro n
  induction n with
  | zero =>
      intro as bs cs ha hb hc
      rw [List.length_eq_zero] at ha hb hc
      subst ha; subst hb; subst hc
      simp [zip3With]
  | succ m ih =>
      intro as bs cs ha hb hc
      cases as with
      | nil => simp at ha
      | cons a as =>
          cases bs with
          | nil => simp at hb
          | cons b bs =>
              cases cs with
              | nil => simp at hc
              | cons c cs =>
                  have ha' : as.length = m := by simpa using ha
                  have hb' : bs.length = m := by simpa using hb
                  have hc' : cs.length = m := by simpa using hc
                  rw [List.ofFn_succ]
                  simp only [zip3With]
                  congr 1
                  rw [ih as bs cs ha' hb' hc']
                  congr 1

/-! ## Field bookkeeping for the in-place updates -/

@[simp] theorem Node.numInputs_withParams (node : Node) (w b : List ℝ) :
    (node.withParams w b).numInputs = node.numInputs := by
  cases node; rfl

@[simp] theorem Node.weights_withParams (node : Node) (w b : List ℝ) :
    (node.withParams w b).weights = w := by
  cases node; rfl

@[simp] theorem Node.biases_withParams (node : Node) (w b : List ℝ) :
    (node.withParams w b).biases = b := by
  cases node; rfl

@[simp] theorem Node.children_withParams (node : Node) (w b : List ℝ) :
    (node.withParams w b).children = node.children := by
  cases node; rfl

@[simp] theorem Node.sigmoid_value_withParams (node : Node) (w b : List ℝ) :
    (node.withParams w b).sigmoid_value = node.sigmoid_value := by
  cases node; rfl

@[simp] theorem Node.value_withParams (node : Node) (w b : List ℝ) :
    (node.withParams w b).value = node.value := by
  cases node; rfl

@[simp] theorem Node.numInputs_withValue (node : Node) (v : ℝ) :
    (node.withValue v).numInputs = node.numInputs := by
  cases node; rfl

@[simp] theorem Node.weights_withValue (node : Node) (v : ℝ) :
    (node.withValue v).weights = node.weights := by
  cases node; rfl

@[simp] theorem Node.biases_withValue (node : Node) (v : ℝ) :
    (node.withValue v).biases = node.biases := by
  cases node; rfl

@[simp] theorem Node.children_withValue (node : Node) (v : ℝ) :
    (node.withValue v).children = node.children := by
  cases node; rfl

@[simp] theorem Node.value_withValue (node : Node) (v : ℝ) :
    (node.withValue v).value = v := by
  cases node; rfl

@[simp] theorem Node.numInputs_withChildren (node : Node) (c : List Node) :
    (node.withChildren c).numInputs = node.numInputs := by
  cases node; rfl

@[simp] theorem Node.weights_withChildren (node : Node) (c : List Node) :
    (node.withChildren c).weights = node.weights := by
  cases node; rfl

@[simp] theorem Node.biases_withChildren (node : Node) (c : List Node) :
    (node.withChildren c).biases = node.biases := by
  cases node; rfl

@[simp] theorem Node.children_withChildren (node : Node) (c : List Node) :
    (node.withChildren c).children = c := by
  cases node; rfl

@[simp] theorem Node.numInputs_mk (n : ℕ) (w b : List ℝ) (c : List Node)
    (s v : ℝ) : (Node.mk n w b c s v).numInputs = n := rfl

@[simp] theorem Node.weights_mk (n : ℕ) (w b : List ℝ) (c : List Node)
    (s v : ℝ) : (Node.mk n w b c s v).weights = w := rfl

@[simp] theorem Node.biases_mk (n : ℕ) (w b : List ℝ) (c : List Node)
    (s v : ℝ) : (Node.mk n w b c s v).biases = b := rfl

@[simp] theorem Node.children_mk (n : ℕ) (w b : List ℝ) (c : List Node)
    (s v : ℝ) : (Node.mk n w b c s v).children = c := rfl

@[simp] theorem Node.sigmoid_value_mk (n : ℕ) (w b : List ℝ) (c : List Node)
    (s v : ℝ) : (Node.mk n w b c s v).sigmoid_value = s := rfl

@[simp] theorem Node.value_mk (n : ℕ) (w b : List ℝ) (c : List Node)
    (s v : ℝ) : (Node.mk n w b c s v).value = v := rfl

theorem Node.gradient_def (node : Node) (nums : List ℝ) (goal learnRate : ℝ) :
    node.gradient nums goal learnRate
      = node.withParams
          (gradUpdate node (goal / (nums.length : ℝ)) learnRate
            node.weights node.biases nums).1
          (gradUpdate node (goal / (nums.length : ℝ)) learnRate
            node.weights node.biases nums).2 := rfl

theorem Node.gradient_weights_length (node : Node) (nums : List ℝ)
    (goal learnRate : ℝ) :
    (node.gradient nums goal learnRate).weights.length = node.weights.length := by
  rw [Node.gradient_def]
  simp [gradUpdate_fst_length]

theorem Node.gradient_biases_length (node : Node) (nums : List ℝ)
    (goal learnRate : ℝ) :
    (node.gradient nums goal learnRate).biases.length = node.biases.length := by
  rw [Node.gradient_def]
  simp [gradUpdate_snd_length]

theorem Node.gradient_numInputs (node : Node) (nums : List ℝ)
    (goal learnRate : ℝ) :
    (node.gradient nums goal learnRate).numInputs = node.numInputs := by
  rw [Node.gradient_def]; simp

/-- C1: for every unit with `inputCount` n, every input list `nums` of length
n, every goal g and learn rate r, one `gradient(nums, g, r)` call replaces,
for each index i, `weights[i]` by `weights[i] - r*dW_i` and `biases[i]` by
`biases[i] - r*dB_i` where, with `a = weights[i]*nums[i] + biases[i]`,
`b = e^(-a*sigmoidCoefficient) + 1`, `c = 1/(b*n)` and per-example goal
`g/len(nums) = g/n`, `dB_i = 2*sigmoidCoefficient*b*(c - g/n)/(b^2*n)` and
`dW_i = dB_i*nums[i]`; all quantities are evaluated at the pre-update
parameters, so no pair's update feeds into another pair's. -/
theorem Node.gradient_updates_each_pair (node : Node) (nums : List ℝ)
    (g r : ℝ) (n : ℕ)
    (hW : node.weights.length = n) (hB : node.biases.length = n)
    (hN : node.numInputs = n) (hx : nums.length = n) :
    (node.gradient nums g r).weights.length = n ∧
    (node.gradient nums g r).biases.length = n ∧
    ∀ (i : ℕ) (hi : i < n),
      (node.gradient nums g r).weights.get
          ⟨i, by rw [Node.gradient_weights_length, hW]; exact hi⟩
        = node.weights.get ⟨i, by rw [hW]; exact hi⟩
            - r * ((2 * node.sigmoid_value
                  * (Real.exp (-(node.weights.get ⟨i, by rw [hW]; exact hi⟩
                        * nums.get ⟨i, by rw [hx]; exact hi⟩
                        + node.biases.get ⟨i, by rw [hB]; exact hi⟩)
                      * node.sigmoid_value) + 1)
                  * (1 / ((Real.exp (-(node.weights.get ⟨i, by rw [hW]; exact hi⟩
                        * nums.get ⟨i, by rw [hx]; exact hi⟩
                        + node.biases.get ⟨i, by rw [hB]; exact hi⟩)
                      * node.sigmoid_value) + 1) * (n : ℝ)) - g / (n : ℝ))
                  / ((Real.exp (-(node.weights.get ⟨i, by rw [hW]; exact hi⟩
                        * nums.get ⟨i, by rw [hx]; exact hi⟩
                        + node.biases.get ⟨i, by rw [hB]; exact hi⟩)
                      * node.sigmoid_value) + 1) ^ 2 * (n : ℝ)))
                * nums.get ⟨i, by rw [hx]; exact hi⟩) ∧
      (node.gradient nums g r).biases.get
          ⟨i, by rw [Node.gradient_biases_length, hB]; exact hi⟩
        = node.biases.get ⟨i, by rw [hB]; exact hi⟩
            - r * (2 * node.sigmoid_value
                  * (Real.exp (-(node.weights.get ⟨i, by rw [hW]; exact hi⟩
                        * nums.get ⟨i, by rw [hx]; exact hi⟩
                        + node.biases.get ⟨i, by rw [hB]; exact hi⟩)
                      * node.sigmoid_value) + 1)
                  * (1 / ((Real.exp (-(node.weights.get ⟨i, by rw [hW]; exact hi⟩
                        * nums.get ⟨i, by rw [hx]; exact hi⟩
                        + node.biases.get ⟨i, by rw [hB]; exact hi⟩)
                      * node.sigmoid_value) + 1) * (n : ℝ)) - g / (n : ℝ))
                  / ((Real.exp (-(node.weights.get ⟨i, by rw [hW]; exact hi⟩
                        * nums.get ⟨i, by rw [hx]; exact hi⟩
                        + node.biases.get ⟨i, by rw [hB]; exact hi⟩)
                      * node.sigmoid_value) + 1) ^ 2 * (n : ℝ))) := by
  obtain ⟨nI, ws, bs, ch, s, v⟩ := node
  dsimp only [Node.weights, Node.biases, Node.numInputs, Node.sigmoid_value]
    at hW hB hN ⊢
  subst hN
  have hxr : (nums.length : ℝ) = (nI : ℝ) := by rw [hx]
  refine ⟨?_, ?_, ?_⟩
  · dsimp only [Node.gradient, Node.withParams, Node.weights]
    rw [gradUpdate_fst_length]; exact hW
  · dsimp only [Node.gradient, Node.withParams, Node.biases]
    rw [gradUpdate_snd_length]; exact hB
  · intro i hi
    have h1 : i < ws.length := by rw [hW]; exact hi
    have h2 : i < bs.length := by rw [hB]; exact hi
    have h3 : i < nums.length := by rw [hx]; exact hi
    constructor
    · dsimp only [Node.gradient, Node.withParams, Node.weights, Node.biases]
      rw [gradUpdate_fst_get (.mk nI ws bs ch s v) (g / (nums.length : ℝ)) r
        ws bs nums i h1 h2 h3]
      dsimp only [Node.gradientHelper, Node.sigmoid_value, Node.numInputs]
      rw [hxr]
    · dsimp only [Node.gradient, Node.withParams, Node.weights, Node.biases]
      rw [gradUpdate_snd_get (.mk nI ws bs ch s v) (g / (nums.length : ℝ)) r
        ws bs nums i h1 h2 h3]
      dsimp only [Node.gradientHelper, Node.sigmoid_value, Node.numInputs]
      rw [hxr]

theorem Node.gradient_updates_each_pair_witness :
    (Node.mk 1 [1] [1] [] 1 0).weights.length = 1 ∧
    (((Node.mk 1 [1] [1] [] 1 0).gradient [1] 1 1).weights.length = 1 ∧
     ((Node.mk 1 [1] [1] [] 1 0).gradient [1] 1 1).biases.length = 1 ∧
     ∀ (i : ℕ) (hi : i < 1),
      ((Node.mk 1 [1] [1] [] 1 0).gradient [1] 1 1).weights.get
          ⟨i, by rw [Node.gradient_weights_length]; exact hi⟩
        = (Node.mk 1 [1] [1] [] 1 0).weights.get ⟨i, hi⟩
            - 1 * ((2 * (Node.mk 1 [1] [1] [] 1 0).sigmoid_value
                  * (Real.exp (-((Node.mk 1 [1] [1] [] 1 0).weights.get ⟨i, hi⟩
                        * ([(1 : ℝ)].get ⟨i, hi⟩)
                        + (Node.mk 1 [1] [1] [] 1 0).biases.get ⟨i, hi⟩)
                      * (Node.mk 1 [1] [1] [] 1 0).sigmoid_value) + 1)
                  * (1 / ((Real.exp (-((Node.mk 1 [1] [1] [] 1 0).weights.get ⟨i, hi⟩
                        * ([(1 : ℝ)].get ⟨i, hi⟩)
                        + (Node.mk 1 [1] [1] [] 1 0).biases.get ⟨i, hi⟩)
                      * (Node.mk 1 [1] [1] [] 1 0).sigmoid_value) + 1) * ((1 : ℕ) : ℝ))
                      - 1 / ((1 : ℕ) : ℝ))
                  / ((Real.exp (-((Node.mk 1 [1] [1] [] 1 0).weights.get ⟨i, hi⟩
                        * ([(1 : ℝ)].get ⟨i, hi⟩)
                        + (Node.mk 1 [1] [1] [] 1 0).biases.get ⟨i, hi⟩)
                      * (Node.mk 1 [1] [1] [] 1 0).sigmoid_value) + 1) ^ 2 * ((1 : ℕ) : ℝ)))
                * ([(1 : ℝ)].get ⟨i, hi⟩)) ∧
      ((Node.mk 1 [1] [1] [] 1 0).gradient [1] 1 1).biases.get
          ⟨i, by rw [Node.gradient_biases_length]; exact hi⟩
        = (Node.mk 1 [1] [1] [] 1 0).biases.get ⟨i, hi⟩
            - 1 * (2 * (Node.mk 1 [1] [1] [] 1 0).sigmoid_value
                  * (Real.exp (-((Node.mk 1 [1] [1] [] 1 0).weights.get ⟨i, hi⟩
                        * ([(1 : ℝ)].get ⟨i, hi⟩)
                        + (Node.mk 1 [1] [1] [] 1 0).biases.get ⟨i, hi⟩)
                      * (Node.mk 1 [1] [1] [] 1 0).sigmoid_value) + 1)
                  * (1 / ((Real.exp (-((Node.mk 1 [1] [1] [] 1 0).weights.get ⟨i, hi⟩
                        * ([(1 : ℝ)].get ⟨i, hi⟩)
                        + (Node.mk 1 [1] [1] [] 1 0).biases.get ⟨i, hi⟩)
                      * (Node.mk 1 [1] [1] [] 1 0).sigmoid_value) + 1) * ((1 : ℕ) : ℝ))
                      - 1 / ((1 : ℕ) : ℝ))
                  / ((Real.exp (-((Node.mk 1 [1] [1] [] 1 0).weights.get ⟨i, hi⟩
                        * ([(1 : ℝ)].get ⟨i, hi⟩)
                        + (Node.mk 1 [1] [1] [] 1 0).biases.get ⟨i, hi⟩)
                      * (Node.mk 1 [1] [1] [] 1 0).sigmoid_value) + 1) ^ 2 * ((1 : ℕ) : ℝ)))) :=
  ⟨rfl, Node.gradient_updates_each_pair (.mk 1 [1] [1] [] 1 0) [1] 1 1 1
      rfl rfl rfl rfl⟩

/-- C10: if `gradient(nums, goal, learnRate)` is called with an input list of
length m shorter than `inputCount` n, no error is raised: the pairs at
indices i < m are updated with per-example goal `goal/len(nums) = goal/m`
(the actual list length, not `inputCount`), and every `weights[i]` and
`biases[i]` with m ≤ i < n is left exactly unchanged. -/
theorem Node.gradient_short_input (node : Node) (nums : List ℝ)
    (g r : ℝ) (n m : ℕ)
    (hW : node.weights.length = n) (hB : node.biases.length = n)
    (hN : node.numInputs = n) (hx : nums.length = m) (hm : m < n) :
    (node.gradient nums g r).weights.length = n ∧
    (node.gradient nums g r).biases.length = n ∧
    (∀ (i : ℕ) (hi : i < m),
      (node.gradient nums g r).weights.get
          ⟨i, by rw [Node.gradient_weights_length, hW]; omega⟩
        = node.weights.get ⟨i, by omega⟩
            - r * (node.gradientHelper (node.weights.get ⟨i, by omega⟩)
                (node.biases.get ⟨i, by omega⟩) (nums.get ⟨i, by omega⟩)
                (g / (m : ℝ))).1 ∧
      (node.gradient nums g r).biases.get
          ⟨i, by rw [Node.gradient_biases_length, hB]; omega⟩
        = node.biases.get ⟨i, by omega⟩
            - r * (node.gradientHelper (node.weights.get ⟨i, by omega⟩)
                (node.biases.get ⟨i, by omega⟩) (nums.get ⟨i, by omega⟩)
                (g / (m : ℝ))).2) ∧
    ∀ (i : ℕ) (hi : i < n), m ≤ i →
      (node.gradient nums g r).weights.get
          ⟨i, by rw [Node.gradient_weights_length, hW]; exact hi⟩
        = node.weights.get ⟨i, by omega⟩ ∧
      (node.gradient nums g r).biases.get
          ⟨i, by rw [Node.gradient_biases_length, hB]; exact hi⟩
        = node.biases.get ⟨i, by omega⟩ := by
  obtain ⟨nI, ws, bs, ch, s, v⟩ := node
  dsimp only [Node.weights, Node.biases, Node.numInputs] at hW hB hN ⊢
  subst hN
  have hxr : (nums.length : ℝ) = (m : ℝ) := by rw [hx]
  refine ⟨?_, ?_, ?_, ?_⟩
  · dsimp only [Node.gradient, Node.withParams, Node.weights]
    rw [gradUpdate_fst_length]; exact hW
  · dsimp only [Node.gradient, Node.withParams, Node.biases]
    rw [gradUpdate_snd_length]; exact hB
  · intro i hi
    have h1 : i < ws.length := by omega
    have h2 : i < bs.length := by omega
    have h3 : i < nums.length := by omega
    constructor
    · dsimp only [Node.gradient, Node.withParams, Node.weights, Node.biases]
      rw [gradUpdate_fst_get (.mk nI ws bs ch s v) (g / (nums.length : ℝ)) r
        ws bs nums i h1 h2 h3]
      rw [hxr]
    · dsimp only [Node.gradient, Node.withParams, Node.weights, Node.biases]
      rw [gradUpdate_snd_get (.mk nI ws bs ch s v) (g / (nums.length : ℝ)) r
        ws bs nums i h1 h2 h3]
      rw [hxr]
  · intro i hi him
    have h1 : i < ws.length := by omega
    have h2 : i < bs.length := by omega
    have h3 : nums.length ≤ i := by omega
    constructor
    · dsimp only [Node.gradient, Node.withParams, Node.weights, Node.biases]
      rw [gradUpdate_fst_get_of_ge (.mk nI ws bs ch s v) (g / (nums.length : ℝ)) r
        ws bs nums i h1 (Or.inr h3)]
    · dsimp only [Node.gradient, Node.withParams, Node.weights, Node.biases]
      rw [gradUpdate_snd_get_of_ge (.mk nI ws bs ch s v) (g / (nums.length : ℝ)) r
        ws bs nums i h2 (Or.inr h3)]

theorem Node.gradient_short_input_witness :
    [(5 : ℝ)].length = 1 ∧ (1 : ℕ) < 2 ∧
    (((Node.mk 2 [1, 2] [3, 4] [] 1 0).gradient [5] 1 1).weights.length = 2 ∧
     ((Node.mk 2 [1, 2] [3, 4] [] 1 0).gradient [5] 1 1).biases.length = 2 ∧
     (∀ (i : ℕ) (hi : i < 1),
       ((Node.mk 2 [1, 2] [3, 4] [] 1 0).gradient [5] 1 1).weights.get
           ⟨i, by rw [Node.gradient_weights_length]; simp [Node.weights]; omega⟩
         = (Node.mk 2 [1, 2] [3, 4] [] 1 0).weights.get ⟨i, by simp [Node.weights]; omega⟩
             - 1 * ((Node.mk 2 [1, 2] [3, 4] [] 1 0).gradientHelper
                 ((Node.mk 2 [1, 2] [3, 4] [] 1 0).weights.get ⟨i, by simp [Node.weights]; omega⟩)
                 ((Node.mk 2 [1, 2] [3, 4] [] 1 0).biases.get ⟨i, by simp [Node.biases]; omega⟩)
                 ([(5 : ℝ)].get ⟨i, by simp; omega⟩) (1 / ((1 : ℕ) : ℝ))).1 ∧
       ((Node.mk 2 [1, 2] [3, 4] [] 1 0).gradient [5] 1 1).biases.get
           ⟨i, by rw [Node.gradient_biases_length]; simp [Node.biases]; omega⟩
         = (Node.mk 2 [1, 2] [3, 4] [] 1 0).biases.get ⟨i, by simp [Node.biases]; omega⟩
             - 1 * ((Node.mk 2 [1, 2] [3, 4] [] 1 0).gradientHelper
                 ((Node.mk 2 [1, 2] [3, 4] [] 1 0).weights.get ⟨i, by simp [Node.weights]; omega⟩)
                 ((Node.mk 2 [1, 2] [3, 4] [] 1 0).biases.get ⟨i, by simp [Node.biases]; omega⟩)
                 ([(5 : ℝ)].get ⟨i, by simp; omega⟩) (1 / ((1 : ℕ) : ℝ))).2) ∧
     ∀ (i : ℕ) (hi : i < 2), 1 ≤ i →
       ((Node.mk 2 [1, 2] [3, 4] [] 1 0).gradient [5] 1 1).weights.get
           ⟨i, by rw [Node.gradient_weights_length]; exact hi⟩
         = (Node.mk 2 [1, 2] [3, 4] [] 1 0).weights.get ⟨i, by simp [Node.weights]; omega⟩ ∧
       ((Node.mk 2 [1, 2] [3, 4] [] 1 0).gradient [5] 1 1).biases.get
           ⟨i, by rw [Node.gradient_biases_length]; exact hi⟩
         = (Node.mk 2 [1, 2] [3, 4] [] 1 0).biases.get ⟨i, by simp [Node.biases]; omega⟩) :=
  ⟨rfl, by omega,
    Node.gradient_short_input (.mk 2 [1, 2] [3, 4] [] 1 0) [5] 1 1 2 1
      rfl rfl rfl rfl (by omega)⟩

/-- C3: calling the unit on an input list of length `inputCount` returns the
sum over all indices i of `sigmoid(weights[i]*nums[i] + biases[i])`, where
`sigmoid(x) = 1/(1 + e^(-x*sigmoidCoefficient))/inputCount`, and stores that
sum in the unit's `value` field; in particular, for every `inputCount > 0`
and every positive `sigmoidCoefficient`, `sigmoid(0) = 0.5/inputCount`. -/
theorem Node.call_sums_sigmoid (node : Node) (nums : List ℝ) (n : ℕ)
    (hW : node.weights.length = n) (hB : node.biases.length = n)
    (hx : nums.length = n) :
    (node.call nums).2
        = (∑ i : Fin n, node.sigmoid
            (node.weights.get (Fin.cast hW.symm i) * nums.get (Fin.cast hx.symm i)
              + node.biases.get (Fin.cast hB.symm i))) ∧
    (node.call nums).1.value = (node.call nums).2 ∧
    (0 < node.numInputs → 0 < node.sigmoid_value →
      node.sigmoid 0 = 0.5 / (node.numInputs : ℝ)) := by
  refine ⟨?_, ?_, ?_⟩
  · show (zip3With (fun weight bias num => node.sigmoid (weight * num + bias))
        node.weights node.biases nums).sum = _
    rw [zip3With_eq_ofFn (fun weight bias num => node.sigmoid (weight * num + bias))
      n node.weights node.biases nums hW hB hx]
    rw [List.sum_ofFn]
  · show (node.withValue _).value = _
    rw [Node.value_withValue]
    rfl
  · intro _ _
    simp only [Node.sigmoid, neg_mul, one_mul, zero_mul, neg_zero, Real.exp_zero]
    norm_num

theorem Node.call_sums_sigmoid_witness :
    (Node.mk 1 [1] [0] [] 1 0).weights.length = 1 ∧
    (((Node.mk 1 [1] [0] [] 1 0).call [0]).2
        = (∑ i : Fin 1, (Node.mk 1 [1] [0] [] 1 0).sigmoid
            ((Node.mk 1 [1] [0] [] 1 0).weights.get (Fin.cast rfl i)
              * [(0 : ℝ)].get (Fin.cast rfl i)
              + (Node.mk 1 [1] [0] [] 1 0).biases.get (Fin.cast rfl i))) ∧
     ((Node.mk 1 [1] [0] [] 1 0).call [0]).1.value
        = ((Node.mk 1 [1] [0] [] 1 0).call [0]).2 ∧
     (0 < (Node.mk 1 [1] [0] [] 1 0).numInputs →
      0 < (Node.mk 1 [1] [0] [] 1 0).sigmoid_value →
      (Node.mk 1 [1] [0] [] 1 0).sigmoid 0
        = 0.5 / (((Node.mk 1 [1] [0] [] 1 0).numInputs : ℕ) : ℝ))) :=
  ⟨rfl, Node.call_sums_sigmoid (.mk 1 [1] [0] [] 1 0) [0] 1 rfl rfl rfl⟩

/-- C6: for every pair of weight and bias lists of equal length, constructing
a unit succeeds, with `inputCount` equal to the common length (and `value`
initialised to 0); for every pair of unequal length, construction raises the
validation error immediately, at construction itself, before any other
operation (no node value is ever produced). -/
theorem Node.init_length_check (w b : List ℝ) (children : List Node) (s : ℝ) :
    (w.length = b.length →
      Node.init w b children s = .ok (.mk w.length w b children s 0)) ∧
    (w.length ≠ b.length →
      Node.init w b children s
        = .error "Different amount of weights and biases.") := by
  constructor
  · intro h
    simp [Node.init, h]
  · intro h
    simp [Node.init, h]

theorem Node.init_length_check_witness :
    ([(1 : ℝ)].length = [(2 : ℝ)].length ∧
      Node.init [1] [2] [] 3 = .ok (.mk [(1 : ℝ)].length [1] [2] [] 3 0)) ∧
    ([(1 : ℝ), 1].length ≠ [(2 : ℝ)].length ∧
      Node.init [1, 1] [2] [] 3
        = .error "Different amount of weights and biases.") :=
  ⟨⟨rfl, (Node.init_length_check [1] [2] [] 3).1 rfl⟩,
   ⟨by simp, (Node.init_length_check [1, 1] [2] [] 3).2 (by simp)⟩⟩

theorem Node.mutate_weights_length (node : Node) (wDraws bDraws : ℕ → ℝ) :
    (node.mutate wDraws bDraws).weights.length = node.weights.length := by
  simp [Node.mutate, mapIdxFrom_length]

theorem Node.mutate_biases_length (node : Node) (wDraws bDraws : ℕ → ℝ) :
    (node.mutate wDraws bDraws).biases.length = node.biases.length := by
  simp [Node.mutate, mapIdxFrom_length]

/-- C8: for every unit and every draw of the random fractions, `mutate()`
returns the very unit it was called on (only the weight and bias entries are
rewritten in place: children, sigmoid coefficient, stored value and
`numInputs` are untouched), replacing each weight and bias independently by
its old value times `(1 - f)` with `f` the fraction drawn for that parameter;
when every draw lies in `[-MAX_MUTATION, MAX_MUTATION] = [-0.5, 0.5]`, every
scaling factor lies in `[1 - MAX_MUTATION, 1 + MAX_MUTATION]`. -/
theorem Node.mutate_scales_params (node : Node) (wDraws bDraws : ℕ → ℝ) :
    (node.mutate wDraws bDraws).children = node.children ∧
    (node.mutate wDraws bDraws).sigmoid_value = node.sigmoid_value ∧
    (node.mutate wDraws bDraws).value = node.value ∧
    (node.mutate wDraws bDraws).numInputs = node.numInputs ∧
    (∀ (i : ℕ) (hi : i < node.weights.length),
      (node.mutate wDraws bDraws).weights.get
          ⟨i, by rw [Node.mutate_weights_length]; exact hi⟩
        = node.weights.get ⟨i, hi⟩ * (1 - wDraws i)) ∧
    (∀ (i : ℕ) (hi : i < node.biases.length),
      (node.mutate wDraws bDraws).biases.get
          ⟨i, by rw [Node.mutate_biases_length]; exact hi⟩
        = node.biases.get ⟨i, hi⟩ * (1 - bDraws i)) ∧
    ((∀ i : ℕ, -Node.MAX_MUTATION ≤ wDraws i ∧ wDraws i ≤ Node.MAX_MUTATION ∧
        -Node.MAX_MUTATION ≤ bDraws i ∧ bDraws i ≤ Node.MAX_MUTATION) →
      ∀ i : ℕ,
        1 - Node.MAX_MUTATION ≤ 1 - wDraws i ∧
        1 - wDraws i ≤ 1 + Node.MAX_MUTATION ∧
        1 - Node.MAX_MUTATION ≤ 1 - bDraws i ∧
        1 - bDraws i ≤ 1 + Node.MAX_MUTATION) := by
  refine ⟨by simp [Node.mutate], by simp [Node.mutate], by simp [Node.mutate],
    by simp [Node.mutate], ?_, ?_, ?_⟩
  · intro i hi
    have := mapIdxFrom_get (fun i w => w * (1 - wDraws i)) 0 node.weights i hi
    simp only [Nat.zero_add] at this
    simpa [Node.mutate] using this
  · intro i hi
    have := mapIdxFrom_get (fun i b => b * (1 - bDraws i)) 0 node.biases i hi
    simp only [Nat.zero_add] at this
    simpa [Node.mutate] using this
  · intro h i
    obtain ⟨h1, h2, h3, h4⟩ := h i
    exact ⟨by linarith, by linarith, by linarith, by linarith⟩

theorem Node.mutate_scales_params_witness :
    ((Node.mk 1 [3] [4] [] 1 2).mutate (fun _ => 0) (fun _ => 0)).children
        = (Node.mk 1 [3] [4] [] 1 2).children ∧
    ((Node.mk 1 [3] [4] [] 1 2).mutate (fun _ => 0) (fun _ => 0)).sigmoid_value
        = (Node.mk 1 [3] [4] [] 1 2).sigmoid_value ∧
    ((Node.mk 1 [3] [4] [] 1 2).mutate (fun _ => 0) (fun _ => 0)).value
        = (Node.mk 1 [3] [4] [] 1 2).value ∧
    ((Node.mk 1 [3] [4] [] 1 2).mutate (fun _ => 0) (fun _ => 0)).numInputs
        = (Node.mk 1 [3] [4] [] 1 2).numInputs ∧
    (∀ (i : ℕ) (hi : i < (Node.mk 1 [3] [4] [] 1 2).weights.length),
      ((Node.mk 1 [3] [4] [] 1 2).mutate (fun _ => 0) (fun _ => 0)).weights.get
          ⟨i, by rw [Node.mutate_weights_length]; exact hi⟩
        = (Node.mk 1 [3] [4] [] 1 2).weights.get ⟨i, hi⟩ * (1 - (fun _ : ℕ => (0 : ℝ)) i)) ∧
    (∀ (i : ℕ) (hi : i < (Node.mk 1 [3] [4] [] 1 2).biases.length),
      ((Node.mk 1 [3] [4] [] 1 2).mutate (fun _ => 0) (fun _ => 0)).biases.get
          ⟨i, by rw [Node.mutate_biases_length]; exact hi⟩
        = (Node.mk 1 [3] [4] [] 1 2).biases.get ⟨i, hi⟩ * (1 - (fun _ : ℕ => (0 : ℝ)) i)) ∧
    ((∀ i : ℕ, -Node.MAX_MUTATION ≤ (fun _ : ℕ => (0 : ℝ)) i ∧
        (fun _ : ℕ => (0 : ℝ)) i ≤ Node.MAX_MUTATION ∧
        -Node.MAX_MUTATION ≤ (fun _ : ℕ => (0 : ℝ)) i ∧
        (fun _ : ℕ => (0 : ℝ)) i ≤ Node.MAX_MUTATION) →
      ∀ i : ℕ,
        1 - Node.MAX_MUTATION ≤ 1 - (fun _ : ℕ => (0 : ℝ)) i ∧
        1 - (fun _ : ℕ => (0 : ℝ)) i ≤ 1 + Node.MAX_MUTATION ∧
        1 - Node.MAX_MUTATION ≤ 1 - (fun _ : ℕ => (0 : ℝ)) i ∧
        1 - (fun _ : ℕ => (0 : ℝ)) i ≤ 1 + Node.MAX_MUTATION) :=
  Node.mutate_scales_params (.mk 1 [3] [4] [] 1 2) (fun _ => 0) (fun _ => 0)

/-- C9: the invariant `len(weights) == len(biases) == numInputs`, established
at successful construction, is preserved by every unit operation: `__call__`,
`gradient` (for any input-list length), `mutate` and `setChildren` keep the
two list lengths and `numInputs` intact (`__call__` and `setChildren` do not
touch the lists at all), `sigmoid` and `asDict` are pure reads, and
`__deepcopy__` succeeds and yields a node satisfying the invariant;
`numInputs` is never reassigned by any of them. -/
theorem Node.param_invariant_preserved (node : Node)
    (hInv : node.ParamInvariant) :
    (∀ (w b : List ℝ) (children : List Node) (s : ℝ) (m : Node),
      Node.init w b children s = .ok m → m.ParamInvariant) ∧
    (∀ nums : List ℝ,
      ((node.call nums).1).ParamInvariant ∧
      (node.call nums).1.weights = node.weights ∧
      (node.call nums).1.biases = node.biases ∧
      (node.call nums).1.numInputs = node.numInputs) ∧
    (∀ (nums : List ℝ) (goal learnRate : ℝ),
      (node.gradient nums goal learnRate).ParamInvariant ∧
      (node.gradient nums goal learnRate).numInputs = node.numInputs) ∧
    (∀ wDraws bDraws : ℕ → ℝ,
      (node.mutate wDraws bDraws).ParamInvariant ∧
      (node.mutate wDraws bDraws).numInputs = node.numInputs) ∧
    (∀ newChildren : List Node,
      (node.setChildren newChildren).ParamInvariant ∧
      (node.setChildren newChildren).weights = node.weights ∧
      (node.setChildren newChildren).biases = node.biases ∧
      (node.setChildren newChildren).numInputs = node.numInputs) ∧
    (node.asDict = (node.weights, node.biases)) ∧
    (∃ m : Node, node.deepcopy = .ok m ∧ m.ParamInvariant) := by
  obtain ⟨hwl, hbl⟩ := hInv
  refine ⟨?_, ?_, ?_, ?_, ?_, rfl, ?_⟩
  · intro w b children s m hm
    simp only [Node.init] at hm
    by_cases h : w.length = b.length
    · simp only [h, ne_eq, not_true_eq_false, if_false, reduceIte,
        Except.ok.injEq] at hm
      cases hm
      refine ⟨?_, ?_⟩ <;> simp [Node.ParamInvariant, h]
    · simp [h] at hm
  · intro nums
    refine ⟨⟨?_, ?_⟩, ?_, ?_, ?_⟩ <;>
      simp [Node.call, hwl, hbl]
  · intro nums goal learnRate
    refine ⟨⟨?_, ?_⟩, ?_⟩
    · rw [Node.gradient_weights_length, Node.gradient_numInputs]; exact hwl
    · rw [Node.gradient_biases_length, Node.gradient_numInputs]; exact hbl
    · exact Node.gradient_numInputs node nums goal learnRate
  · intro wDraws bDraws
    refine ⟨⟨?_, ?_⟩, ?_⟩
    · rw [Node.mutate_weights_length]
      simp [Node.mutate, hwl]
    · rw [Node.mutate_biases_length]
      simp [Node.mutate, hbl]
    · simp [Node.mutate]
  · intro newChildren
    refine ⟨⟨?_, ?_⟩, ?_, ?_, ?_⟩ <;>
      simp [Node.setChildren, hwl, hbl]
  · refine ⟨.mk (node.weights.map (fun weight => weight)).length
      (node.weights.map (fun weight => weight))
      (node.biases.map (fun bias => bias)) node.children node.sigmoid_value 0,
      ?_, ?_, ?_⟩
    · simp only [Node.deepcopy, Node.init, List.length_map, hwl, hbl, ne_eq,
        not_true_eq_false, reduceIte]
    · simp [Node.ParamInvariant]
    · simp [Node.ParamInvariant, hwl, hbl]

theorem Node.param_invariant_preserved_witness :
    (Node.mk 1 [1] [2] [] 0 0).ParamInvariant ∧
    ((∀ (w b : List ℝ) (children : List Node) (s : ℝ) (m : Node),
      Node.init w b children s = .ok m → m.ParamInvariant) ∧
    (∀ nums : List ℝ,
      (((Node.mk 1 [1] [2] [] 0 0).call nums).1).ParamInvariant ∧
      ((Node.mk 1 [1] [2] [] 0 0).call nums).1.weights
        = (Node.mk 1 [1] [2] [] 0 0).weights ∧
      ((Node.mk 1 [1] [2] [] 0 0).call nums).1.biases
        = (Node.mk 1 [1] [2] [] 0 0).biases ∧
      ((Node.mk 1 [1] [2] [] 0 0).call nums).1.numInputs
        = (Node.mk 1 [1] [2] [] 0 0).numInputs) ∧
    (∀ (nums : List ℝ) (goal learnRate : ℝ),
      ((Node.mk 1 [1] [2] [] 0 0).gradient nums goal learnRate).ParamInvariant ∧
      ((Node.mk 1 [1] [2] [] 0 0).gradient nums goal learnRate).numInputs
        = (Node.mk 1 [1] [2] [] 0 0).numInputs) ∧
    (∀ wDraws bDraws : ℕ → ℝ,
      ((Node.mk 1 [1] [2] [] 0 0).mutate wDraws bDraws).ParamInvariant ∧
      ((Node.mk 1 [1] [2] [] 0 0).mutate wDraws bDraws).numInputs
        = (Node.mk 1 [1] [2] [] 0 0).numInputs) ∧
    (∀ newChildren : List Node,
      ((Node.mk 1 [1] [2] [] 0 0).setChildren newChildren).ParamInvariant ∧
      ((Node.mk 1 [1] [2] [] 0 0).setChildren newChildren).weights
        = (Node.mk 1 [1] [2] [] 0 0).weights ∧
      ((Node.mk 1 [1] [2] [] 0 0).setChildren newChildren).biases
        = (Node.mk 1 [1] [2] [] 0 0).biases ∧
      ((Node.mk 1 [1] [2] [] 0 0).setChildren newChildren).numInputs
        = (Node.mk 1 [1] [2] [] 0 0).numInputs) ∧
    ((Node.mk 1 [1] [2] [] 0 0).asDict
      = ((Node.mk 1 [1] [2] [] 0 0).weights, (Node.mk 1 [1] [2] [] 0 0).biases)) ∧
    (∃ m : Node, (Node.mk 1 [1] [2] [] 0 0).deepcopy = .ok m ∧ m.ParamInvariant)) :=
  ⟨⟨rfl, rfl⟩, Node.param_invariant_preserved (.mk 1 [1] [2] [] 0 0) ⟨rfl, rfl⟩⟩

theorem Node.reachable_isConnectedTo {n other : Node}
    (h : Node.Reachable n other) : Node.isConnectedTo n other := by
  induction h with
  | direct m c hc =>
      obtain ⟨nI, ws, bs, ch, s, v⟩ := m
      rw [Node.isConnectedTo]
      exact Or.inl (by simpa using hc)
  | through m c o hc _ ih =>
      obtain ⟨nI, ws, bs, ch, s, v⟩ := m
      rw [Node.isConnectedTo]
      exact Or.inr ⟨⟨c, by simpa using hc⟩, ih⟩

theorem Node.connected_reachable :
    ∀ n other : Node, Node.isConnectedTo n other → Node.Reachable n other
  | .mk nI ws bs ch s v, other => fun h => by
      rw [Node.isConnectedTo] at h
      rcases h with hmem | ⟨c, hc⟩
      · exact Node.Reachable.direct _ _ (by simpa using hmem)
      · exact Node.Reachable.through _ c.val _ (by simpa using c.property)
          (Node.connected_reachable c.val other hc)
termination_by n _ => sizeOf n
decreasing_by
  have h := List.sizeOf_lt_of_mem c.property
  simp only [Node.mk.sizeOf_spec]
  omega

/-- C7: for every unit (whose children graph in this embedding is acyclic by
construction), `isConnectedTo(other)` is a total (terminating) predicate that
holds if and only if `other` is a member of the unit's `children` list or some
child is itself connected to `other` — that is, iff `other` is reachable from
the unit by following one or more `children` edges; in particular it holds
for a direct child and a grandchild, and fails for a unit not reachable
through any descendant. -/
theorem Node.isConnectedTo_iff_reachable (n other : Node) :
    Node.isConnectedTo n other ↔ Node.Reachable n other :=
  ⟨Node.connected_reachable n other, Node.reachable_isConnectedTo⟩

/-- C5: every `stepGeneration(inputs, goal)` call invokes, for each index
`i < nodesInLayer`, the gradient routine of first-layer unit `nodes[0][i]`
with the raw `inputs` vector, the goal `goal / size` where
`size = nodesInLayer * numLayers`, and the trainer's fixed `learnRate`; the
units of every layer other than layer 0 (and all other trainer fields) are
left unchanged. -/
theorem GradientNetwork.stepGeneration_first_layer_only
    (net : GradientNetwork) (inputs : List ℝ) (goal : ℝ)
    (layer0 : List Node) (rest : List (List Node))
    (hNodes : net.nodes = layer0 :: rest)
    (hLen : net.nodesInLayer ≤ layer0.length)
    (hSize : net.size = net.nodesInLayer * net.numLayers) :
    ((net.stepGeneration inputs goal).nodes
        = (List.ofFn (fun i : Fin layer0.length =>
            if (i : ℕ) < net.nodesInLayer then
              (layer0.get i).gradient inputs
                (goal / ((net.nodesInLayer * net.numLayers : ℕ) : ℝ))
                net.learnRate
            else layer0.get i)) :: rest) ∧
    (net.stepGeneration inputs goal).nodesInLayer = net.nodesInLayer ∧
    (net.stepGeneration inputs goal).numLayers = net.numLayers ∧
    (net.stepGeneration inputs goal).maxIter = net.maxIter ∧
    (net.stepGeneration inputs goal).learnRate = net.learnRate ∧
    (net.stepGeneration inputs goal).value = net.value ∧
    (net.stepGeneration inputs goal).size = net.size := by
  refine ⟨?_, by simp [GradientNetwork.stepGeneration],
    by simp [GradientNetwork.stepGeneration],
    by simp [GradientNetwork.stepGeneration],
    by simp [GradientNetwork.stepGeneration],
    by simp [GradientNetwork.stepGeneration],
    by simp [GradientNetwork.stepGeneration]⟩
  have hstep : (net.stepGeneration inputs goal).nodes
      = updateFirst
          (fun node => node.gradient inputs (goal / (net.size : ℝ)) net.learnRate)
          net.nodesInLayer layer0 :: rest := by
    simp [GradientNetwork.stepGeneration, hNodes]
  rw [hstep]
  congr 1
  apply List.ext_get
  · simp [updateFirst_length]
  · intro i h1 h2
    have hi : i < layer0.length := by
      simpa [updateFirst_length] using h1
    rw [updateFirst_get
      (fun node => node.gradient inputs (goal / (net.size : ℝ)) net.learnRate)
      net.nodesInLayer layer0 i hi]
    rw [List.get_ofFn]
    simp only [Fin.cast_mk, Fin.val_mk]
    rw [hSize]

theorem GradientNetwork.stepGeneration_first_layer_only_witness :
    (GradientNetwork.init 0 1 1 [[Node.mk 0 [] [] [] 0 0]] 10 1 0).nodes
        = [Node.mk 0 [] [] [] 0 0] :: [] ∧
    (GradientNetwork.init 0 1 1 [[Node.mk 0 [] [] [] 0 0]] 10 1 0).nodesInLayer
        ≤ [Node.mk 0 [] [] [] 0 0].length ∧
    (GradientNetwork.init 0 1 1 [[Node.mk 0 [] [] [] 0 0]] 10 1 0).size
        = (GradientNetwork.init 0 1 1 [[Node.mk 0 [] [] [] 0 0]] 10 1 0).nodesInLayer
          * (GradientNetwork.init 0 1 1 [[Node.mk 0 [] [] [] 0 0]] 10 1 0).numLayers ∧
    (((GradientNetwork.init 0 1 1 [[Node.mk 0 [] [] [] 0 0]] 10 1 0).stepGeneration
          [2] 3).nodes
        = (List.ofFn (fun i : Fin [Node.mk 0 [] [] [] 0 0].length =>
            if (i : ℕ) < (GradientNetwork.init 0 1 1 [[Node.mk 0 [] [] [] 0 0]] 10 1 0).nodesInLayer then
              ([Node.mk 0 [] [] [] 0 0].get i).gradient [2]
                (3 / (((GradientNetwork.init 0 1 1 [[Node.mk 0 [] [] [] 0 0]] 10 1 0).nodesInLayer
                    * (GradientNetwork.init 0 1 1 [[Node.mk 0 [] [] [] 0 0]] 10 1 0).numLayers : ℕ) : ℝ))
                (GradientNetwork.init 0 1 1 [[Node.mk 0 [] [] [] 0 0]] 10 1 0).learnRate
            else [Node.mk 0 [] [] [] 0 0].get i)) :: []) ∧
    ((GradientNetwork.init 0 1 1 [[Node.mk 0 [] [] [] 0 0]] 10 1 0).stepGeneration
        [2] 3).nodesInLayer
      = (GradientNetwork.init 0 1 1 [[Node.mk 0 [] [] [] 0 0]] 10 1 0).nodesInLayer ∧
    ((GradientNetwork.init 0 1 1 [[Node.mk 0 [] [] [] 0 0]] 10 1 0).stepGeneration
        [2] 3).numLayers
      = (GradientNetwork.init 0 1 1 [[Node.mk 0 [] [] [] 0 0]] 10 1 0).numLayers ∧
    ((GradientNetwork.init 0 1 1 [[Node.mk 0 [] [] [] 0 0]] 10 1 0).stepGeneration
        [2] 3).maxIter
      = (GradientNetwork.init 0 1 1 [[Node.mk 0 [] [] [] 0 0]] 10 1 0).maxIter ∧
    ((GradientNetwork.init 0 1 1 [[Node.mk 0 [] [] [] 0 0]] 10 1 0).stepGeneration
        [2] 3).learnRate
      = (GradientNetwork.init 0 1 1 [[Node.mk 0 [] [] [] 0 0]] 10 1 0).learnRate ∧
    ((GradientNetwork.init 0 1 1 [[Node.mk 0 [] [] [] 0 0]] 10 1 0).stepGeneration
        [2] 3).value
      = (GradientNetwork.init 0 1 1 [[Node.mk 0 [] [] [] 0 0]] 10 1 0).value ∧
    ((GradientNetwork.init 0 1 1 [[Node.mk 0 [] [] [] 0 0]] 10 1 0).stepGeneration
        [2] 3).size
      = (GradientNetwork.init 0 1 1 [[Node.mk 0 [] [] [] 0 0]] 10 1 0).size :=
  ⟨rfl, Nat.le_refl 1, rfl,
    GradientNetwork.stepGeneration_first_layer_only
      (GradientNetwork.init 0 1 1 [[Node.mk 0 [] [] [] 0 0]] 10 1 0) [2] 3
      [Node.mk 0 [] [] [] 0 0] [] rfl (Nat.le_refl 1) rfl⟩

theorem GradientNetwork.evolveAux_counter_le
    (fw : GradientNetwork → List ℝ → GradientNetwork)
    (inputs : List ℝ) (goal t : ℝ) :
    ∀ (fuel : ℕ) (net : GradientNetwork) (counter : ℕ),
      (GradientNetwork.evolveAux fw inputs goal t fuel net counter).2
        ≤ counter + fuel := by
  intro fuel
  induction fuel with
  | zero =>
      intro net counter
      simp [GradientNetwork.evolveAux]
  | succ fuel ih =>
      intro net counter
      rw [GradientNetwork.evolveAux]
      split
      · simp
      · have := ih ((fw net inputs).stepGeneration inputs goal) (counter + 1)
        omega

theorem GradientNetwork.evolveAux_stop
    (fw : GradientNetwork → List ℝ → GradientNetwork)
    (inputs : List ℝ) (goal t : ℝ) (fuel counter : ℕ) (m : GradientNetwork)
    (h : |m.value - goal| < |t * goal|) :
    GradientNetwork.evolveAux fw inputs goal t (fuel + 1) m counter
      = (m, counter) := by
  rw [GradientNetwork.evolveAux]
  simp [h]

/-- C4: for every trainer state and every tolerance argument,
`evolveTillTolerance(inputs, goal, tolerance)` replaces `tolerance` by 0.1
whenever `tolerance <= 0`; it performs at most 1000 rounds; at the top of
each round, before invoking the forward pass, it stops as soon as
`|value - goal| < |tolerance * goal|`; consequently, if the trainer's
pre-existing `value` already satisfies the criterion, it stops at iteration 0
having performed no forward pass and no training step (the state is returned
untouched).  The forward pass `fw` of the external Network collaborator is
universally quantified, so the properties hold whatever it does. -/
theorem GradientNetwork.evolveTillTolerance_control
    (fw : GradientNetwork → List ℝ → GradientNetwork)
    (net : GradientNetwork) (inputs : List ℝ) (goal tolerance : ℝ) :
    ((GradientNetwork.evolveTillTolerance fw net inputs goal tolerance).2
        ≤ 1000) ∧
    (tolerance ≤ 0 →
      GradientNetwork.evolveTillTolerance fw net inputs goal tolerance
        = GradientNetwork.evolveTillTolerance fw net inputs goal 0.1) ∧
    (∀ (fuel counter : ℕ) (m : GradientNetwork),
      |m.value - goal| < |(if tolerance ≤ 0 then (0.1 : ℝ) else tolerance) * goal| →
      GradientNetwork.evolveAux fw inputs goal
          (if tolerance ≤ 0 then (0.1 : ℝ) else tolerance) (fuel + 1) m counter
        = (m, counter)) ∧
    (|net.value - goal| < |(if tolerance ≤ 0 then (0.1 : ℝ) else tolerance) * goal| →
      GradientNetwork.evolveTillTolerance fw net inputs goal tolerance
        = (net, 0)) := by
  refine ⟨?_, ?_, ?_, ?_⟩
  · simp only [GradientNetwork.evolveTillTolerance]
    exact GradientNetwork.evolveAux_counter_le fw inputs goal _ 1000 net 0
  · intro h
    simp only [GradientNetwork.evolveTillTolerance, if_pos h]
    have h01 : ¬ ((0.1 : ℝ) ≤ 0) := by norm_num
    rw [if_neg h01]
  · intro fuel counter m hm
    exact GradientNetwork.evolveAux_stop fw inputs goal _ fuel counter m hm
  · intro h
    simp only [GradientNetwork.evolveTillTolerance]
    have h1000 : (1000 : ℕ) = 999 + 1 := rfl
    rw [h1000]
    exact GradientNetwork.evolveAux_stop fw inputs goal _ 999 0 net h

theorem GradientNetwork.evolveTillTolerance_control_witness :
    |(GradientNetwork.init 0 1 1 [] 10 1 1).value - 1|
        < |(if (1 : ℝ) / 2 ≤ 0 then (0.1 : ℝ) else 1 / 2) * 1| ∧
    GradientNetwork.evolveTillTolerance (fun n _ => n)
        (GradientNetwork.init 0 1 1 [] 10 1 1) [] 1 (1 / 2)
      = (GradientNetwork.init 0 1 1 [] 10 1 1, 0) :=
  ⟨by norm_num [GradientNetwork.init],
    (GradientNetwork.evolveTillTolerance_control (fun n _ => n)
        (GradientNetwork.init 0 1 1 [] 10 1 1) [] 1 (1 / 2)).2.2.2
      (by norm_num [GradientNetwork.init])⟩

theorem hasDerivAt_inv_exp_sq :
    HasDerivAt (fun t : ℝ => (1 / (Real.exp (-t) + 1)) ^ 2) (1 / 4) 0 := by
  have h1 : HasDerivAt (fun t : ℝ => -t) (-1) 0 := by
    simpa using (hasDerivAt_id (0 : ℝ)).neg
  have h2 : HasDerivAt (fun t : ℝ => Real.exp (-t))
      (Real.exp (-(0 : ℝ)) * (-1)) 0 := h1.exp
  have h3 : HasDerivAt (fun t : ℝ => Real.exp (-t) + 1)
      (Real.exp (-(0 : ℝ)) * (-1)) 0 := h2.add_const 1
  have hne : Real.exp (-(0 : ℝ)) + 1 ≠ 0 := by positivity
  have h4 := h3.inv hne
  have h5 := h4.pow 2
  have hfun : (fun t : ℝ => (1 / (Real.exp (-t) + 1)) ^ 2)
      = fun t : ℝ => ((Real.exp (-t) + 1)⁻¹) ^ 2 := by
    funext t
    rw [one_div]
  rw [hfun]
  convert h5 using 1
  norm_num [Real.exp_zero]

/-- C2: the bias partial returned by `gradientHelper` is NOT the analytic
derivative of `(c - perExampleGoal)^2` with respect to the bias (nor is the
weight partial the derivative with respect to the weight): the code's factor
`b` should be `b - 1 = e^(-a*s)`, since `db/d(bias) = -s*e^(-a*s)`.  At
weight 0, bias 0, input 1, perExampleGoal 0, sigmoidCoefficient 1 and
inputCount 1, the code returns (1/2, 1/2) while the analytic derivatives of
the squared error with respect to weight and bias at that point are both
1/4 ≠ 1/2. -/
theorem Node.gradientHelper_not_analytic_derivative :
    (Node.mk 1 [0] [0] [] 1 0).gradientHelper 0 0 1 0 = (1 / 2, 1 / 2) ∧
    HasDerivAt (lossOfBias 1 1 0 1 0) (1 / 4) 0 ∧
    HasDerivAt (lossOfWeight 1 1 0 1 0) (1 / 4) 0 ∧
    ((1 : ℝ) / 2 ≠ 1 / 4) := by
  refine ⟨?_, ?_, ?_, by norm_num⟩
  · simp only [Node.gradientHelper, Node.sigmoid_value_mk, Node.numInputs_mk]
    norm_num [Real.exp_zero]
  · have hfun : lossOfBias 1 1 0 1 0
        = fun t : ℝ => (1 / (Real.exp (-t) + 1)) ^ 2 := by
      funext t
      simp [lossOfBias]
    rw [hfun]
    exact hasDerivAt_inv_exp_sq
  · have hfun : lossOfWeight 1 1 0 1 0
        = fun t : ℝ => (1 / (Real.exp (-t) + 1)) ^ 2 := by
      funext t
      simp [lossOfWeight]
    rw [hfun]
    exact hasDerivAt_inv_exp_sq
